import Mathlib

/-!
Verification of the HomeManagement budget data model.

The repository validates budget data with Zod schemas
(`FrequencySchema`, `SalaryConfigSchema`, `BudgetItemSchema`,
`DebtDetailsSchema`, `ScenarioSchema` in the validation package).  Those
schemas parse untyped JSON-like values, so we embed a small JSON value
type and translate each schema into a parser over it.  The budget
projection engine (normalizer, scenario evaluator, debt amortizer) is
described by the design documents but not implemented in the code; its
definitions below are modelled from the spec and marked as such.
-/

namespace HomeManagement

/-- JSON-like input values: the domain over which the Zod validators run. -/
inductive JValue where
  | jnull
  | jbool (b : Bool)
  | jnum (q : ℚ)
  | jstr (s : String)
  | jobj (fields : List (String × JValue))

/-- Look up a key in an object's field list (first occurrence wins,
matching JavaScript object semantics where keys are unique). -/
def getField (fields : List (String × JValue)) (k : String) : Option JValue :=
  match fields with
  | [] => none
  | (k', v) :: rest => if k' = k then some v else getField rest k

/-- The four recurrence frequencies of `FrequencySchema`
(`z.enum(['weekly', 'biweekly', 'monthly', 'yearly'])`). -/
inductive Frequency where
  | weekly
  | biweekly
  | monthly
  | yearly
deriving DecidableEq, Repr

/-- Embedding of `FrequencySchema.parse`: a string is accepted exactly
when it is one of the four enumerated frequency literals. -/
def parseFrequency (v : JValue) : Option Frequency :=
  match v with
  | .jstr s =>
    if s = "weekly" then some .weekly
    else if s = "biweekly" then some .biweekly
    else if s = "monthly" then some .monthly
    else if s = "yearly" then some .yearly
    else none
  | _ => none

/-- Embedding of `z.number()`. -/
def parseNum (v : JValue) : Option ℚ :=
  match v with
  | .jnum q => some q
  | _ => none

/-- Embedding of `z.string()`. -/
def parseStr (v : JValue) : Option String :=
  match v with
  | .jstr s => some s
  | _ => none

/-- Embedding of `z.boolean()`. -/
def parseBool (v : JValue) : Option Bool :=
  match v with
  | .jbool b => some b
  | _ => none

/-- Embedding of `z.number().int()`: the numeric value must be an integer. -/
def parseIntNum (v : JValue) : Option ℤ :=
  match v with
  | .jnum q => if q.den = 1 then some q.num else none
  | _ => none

/-- A required object field: absent means the whole parse fails. -/
def reqField {α : Type} (fs : List (String × JValue)) (k : String)
    (p : JValue → Option α) : Option α :=
  match getField fs k with
  | none => none
  | some v => p v

/-- An optional object field (`.optional()`): absent yields `none`,
present must parse. -/
def optField {α : Type} (fs : List (String × JValue)) (k : String)
    (p : JValue → Option α) : Option (Option α) :=
  match getField fs k with
  | none => some none
  | some v => (p v).map some

/-- An object field with a default (`.default(d)`): absent yields the
default, present must parse. -/
def defField {α : Type} (fs : List (String × JValue)) (k : String)
    (p : JValue → Option α) (d : α) : Option α :=
  match getField fs k with
  | none => some d
  | some v => p v

/-- Result type of `SalaryConfigSchema`. -/
structure SalaryConfig where
  amount : ℚ
  frequency : Frequency
  currency : String
deriving DecidableEq, Repr

/-- Embedding of `z.number().positive()` for the salary amount. -/
def parsePosNum (v : JValue) : Option ℚ :=
  match parseNum v with
  | none => none
  | some q => if 0 < q then some q else none

/-- Embedding of `z.string().length(3)` for the currency code. -/
def parseCurrency (v : JValue) : Option String :=
  match parseStr v with
  | none => none
  | some s => if s.length = 3 then some s else none

/-- Embedding of `SalaryConfigSchema.parse`: positive `amount`,
`frequency` defaulting to biweekly, 3-letter `currency` defaulting
to USD. -/
def parseSalaryConfig (v : JValue) : Option SalaryConfig :=
  match v with
  | .jobj fs =>
    (reqField fs "amount" parsePosNum).bind fun amount =>
    (defField fs "frequency" parseFrequency .biweekly).bind fun freq =>
    (defField fs "currency" parseCurrency "USD").bind fun curr =>
    some ⟨amount, freq, curr⟩
  | _ => none

/-- Embedding of `z.number().int().positive()` (ids, `category_id`). -/
def parsePosInt (v : JValue) : Option ℤ :=
  match parseIntNum v with
  | none => none
  | some n => if 0 < n then some n else none

/-- Embedding of `z.string().min(lo).max(hi)` (length bounds). -/
def parseStrLen (lo hi : ℕ) (v : JValue) : Option String :=
  match parseStr v with
  | none => none
  | some s => if lo ≤ s.length ∧ s.length ≤ hi then some s else none

/-- Embedding of `z.number().positive().max(1_000_000_000)` for the
budget item amount. -/
def parseItemAmount (v : JValue) : Option ℚ :=
  match parseNum v with
  | none => none
  | some q => if 0 < q then (if q ≤ 1000000000 then some q else none) else none

/-- Embedding of `z.number().int().min(1).max(31)` for the due day. -/
def parseDueDay (v : JValue) : Option ℤ :=
  match parseIntNum v with
  | none => none
  | some n => if 1 ≤ n ∧ n ≤ 31 then some n else none

/-- Result type of `BudgetItemSchema`. -/
structure BudgetItem where
  id : Option ℤ
  category_id : ℤ
  name : String
  amount : ℚ
  frequency : Frequency
  is_active : Bool
  due_day : Option ℤ
  notes : Option String
deriving DecidableEq, Repr

/-- Embedding of `BudgetItemSchema.parse`: optional positive-int `id`,
required positive-int `category_id`, `name` of 1 to 100 characters,
`amount` positive and at most 1e9, `frequency` defaulting to monthly,
`is_active` defaulting to true, optional `due_day` 1 to 31, optional
`notes` of at most 1000 characters. -/
def parseBudgetItem (v : JValue) : Option BudgetItem :=
  match v with
  | .jobj fs =>
    (optField fs "id" parsePosInt).bind fun i =>
    (reqField fs "category_id" parsePosInt).bind fun cid =>
    (reqField fs "name" (parseStrLen 1 100)).bind fun nm =>
    (reqField fs "amount" parseItemAmount).bind fun amount =>
    (defField fs "frequency" parseFrequency .monthly).bind fun freq =>
    (defField fs "is_active" parseBool true).bind fun act =>
    (optField fs "due_day" parseDueDay).bind fun dd =>
    (optField fs "notes" (parseStrLen 0 1000)).bind fun nts =>
    some ⟨i, cid, nm, amount, freq, act, dd, nts⟩
  | _ => none

/-- Embedding of the `z.string().datetime()` format used for
`target_payoff_date`: an ISO-8601 UTC timestamp
`YYYY-MM-DDTHH:MM:SS(.fraction)?Z`. -/
def isIsoDatetime (s : String) : Bool :=
  match s.toList with
  | y1 :: y2 :: y3 :: y4 :: '-' :: m1 :: m2 :: '-' :: d1 :: d2 :: 'T' ::
      h1 :: h2 :: ':' :: n1 :: n2 :: ':' :: s1 :: s2 :: rest =>
    ([y1, y2, y3, y4, m1, m2, d1, d2, h1, h2, n1, n2, s1, s2].all Char.isDigit) &&
    (match rest with
     | ['Z'] => true
     | '.' :: rest2 =>
       !(rest2.takeWhile Char.isDigit).isEmpty &&
       rest2.dropWhile Char.isDigit = ['Z']
     | _ => false)
  | _ => false

/-- Embedding of `z.string().datetime()`. -/
def parseDatetime (v : JValue) : Option String :=
  match parseStr v with
  | none => none
  | some s => if isIsoDatetime s then some s else none

/-- Embedding of `z.number().min(0).max(1)` for the annual interest
rate. -/
def parseRate (v : JValue) : Option ℚ :=
  match parseNum v with
  | none => none
  | some q => if 0 ≤ q ∧ q ≤ 1 then some q else none

/-- Result type of `DebtDetailsSchema`. -/
structure DebtDetails where
  budget_item_id : ℤ
  principal : ℚ
  interest_rate : Option ℚ
  minimum_payment : Option ℚ
  current_balance : ℚ
  target_payoff_date : Option String
deriving DecidableEq, Repr

/-- Embedding of `DebtDetailsSchema.parse`: required positive-int
`budget_item_id`, positive `principal`, optional `interest_rate` in
[0, 1], optional positive `minimum_payment`, positive
`current_balance`, optional ISO-datetime `target_payoff_date`.  No
relation between `current_balance` and `principal` is checked. -/
def parseDebtDetails (v : JValue) : Option DebtDetails :=
  match v with
  | .jobj fs =>
    (reqField fs "budget_item_id" parsePosInt).bind fun bid =>
    (reqField fs "principal" parsePosNum).bind fun pr =>
    (optField fs "interest_rate" parseRate).bind fun rate =>
    (optField fs "minimum_payment" parsePosNum).bind fun mp =>
    (reqField fs "current_balance" parsePosNum).bind fun bal =>
    (optField fs "target_payoff_date" parseDatetime).bind fun tpd =>
    some ⟨bid, pr, rate, mp, bal, tpd⟩
  | _ => none

/-- Category types of `CategoryTypeSchema`
(`z.enum(['expense', 'debt', 'subscription'])`). -/
inductive CategoryType where
  | expense
  | debt
  | subscription
deriving DecidableEq, Repr

/-- Result type of `ScenarioSchema`; `item_states` keeps the record's
key order. -/
structure Scenario where
  id : Option ℤ
  name : String
  description : Option String
  item_states : List (String × Bool)
deriving DecidableEq, Repr

/-- Embedding of `z.record(z.string(), z.boolean())`: every value of
the object must be a boolean. -/
def parseBoolRecord (kvs : List (String × JValue)) : Option (List (String × Bool)) :=
  match kvs with
  | [] => some []
  | (k, v) :: rest =>
    (parseBool v).bind fun b =>
    (parseBoolRecord rest).bind fun r =>
    some ((k, b) :: r)

/-- Embedding of `ScenarioSchema.parse`: optional positive-int `id`,
`name` of 1 to 100 characters, optional `description` of at most 500
characters, and an `item_states` record mapping string keys to
booleans. -/
def parseScenario (v : JValue) : Option Scenario :=
  match v with
  | .jobj fs =>
    (optField fs "id" parsePosInt).bind fun i =>
    (reqField fs "name" (parseStrLen 1 100)).bind fun nm =>
    (optField fs "description" (parseStrLen 0 500)).bind fun desc =>
    (reqField fs "item_states"
      (fun v => match v with
        | .jobj kvs => parseBoolRecord kvs
        | _ => none)).bind fun states =>
    some ⟨i, nm, desc, states⟩
  | _ => none

/-- Modelled from the spec: the Normalizer's fixed annual ratios —
weekly 52, biweekly 26, monthly 12, yearly 1 periods per year.  The
engine itself is absent from the code. -/
def periodsPerYear (f : Frequency) : ℚ :=
  match f with
  | .weekly => 52
  | .biweekly => 26
  | .monthly => 12
  | .yearly => 1

/-- Modelled from the spec: the Normalizer converts an amount from its
source frequency to a target frequency by expressing it as an annual
total and dividing by the target's periods per year.  The engine itself
is absent from the code. -/
def normalize (amount : ℚ) (src tgt : Frequency) : ℚ :=
  amount * periodsPerYear src / periodsPerYear tgt

/-- Look up an item id key in a scenario's `item_states` map (first
occurrence wins; keys are unique in a record). -/
def lookupState (states : List (String × Bool)) (k : String) : Option Bool :=
  match states with
  | [] => none
  | (k', b) :: rest => if k' = k then some b else lookupState rest k

/-- Modelled from the spec: the Scenario Evaluator's effective
active-state of an item — the scenario's `item_states` entry for the
item's id when present, the item's own `is_active` flag otherwise.
Record keys are the decimal string of the item id.  The evaluator
itself is absent from the code. -/
def effectiveActive (sc : Option Scenario) (item : BudgetItem) : Bool :=
  match sc with
  | none => item.is_active
  | some sc =>
    match item.id with
    | none => item.is_active
    | some i => (lookupState sc.item_states (toString i)).getD item.is_active

/-- Modelled from the spec: the contribution of one (item, category
type) pair to the group total of category type `t`, normalized to the
target frequency; inactive items and items of other types contribute
zero. -/
def itemContribution (sc : Option Scenario) (tgt : Frequency)
    (t : CategoryType) (p : BudgetItem × CategoryType) : ℚ :=
  if p.2 = t ∧ effectiveActive sc p.1 then normalize p.1.amount p.1.frequency tgt else 0

/-- Modelled from the spec: a group total of the Scenario Evaluator —
the sum of the per-salary-period amounts of the effectively active
items of one category type. -/
def groupTotal (items : List (BudgetItem × CategoryType)) (sc : Option Scenario)
    (salary : SalaryConfig) (t : CategoryType) : ℚ :=
  (items.map (itemContribution sc salary.frequency t)).sum

/-- Aggregate report of the Scenario Evaluator; `savingsRate` is `none`
when gross income is zero (flagged rather than dividing by zero). -/
structure Report where
  grossIncome : ℚ
  expenseTotal : ℚ
  debtTotal : ℚ
  subscriptionTotal : ℚ
  netPerPeriod : ℚ
  savingsRate : Option ℚ
deriving DecidableEq, Repr

/-- Modelled from the spec: the Scenario Evaluator — partitions items
by category type, sums normalized amounts of effectively active items,
and derives net-per-period and the savings rate.  The evaluator itself
is absent from the code. -/
def evaluate (items : List (BudgetItem × CategoryType)) (sc : Option Scenario)
    (salary : SalaryConfig) : Report :=
  let e := groupTotal items sc salary .expense
  let d := groupTotal items sc salary .debt
  let s := groupTotal items sc salary .subscription
  let gross := salary.amount
  let net := gross - (e + d + s)
  { grossIncome := gross
    expenseTotal := e
    debtTotal := d
    subscriptionTotal := s
    netPerPeriod := net
    savingsRate := if gross = 0 then none else some (net / gross) }

/-- One period of a debt payoff schedule: the period index, the balance
remaining after the payment, the interest accrued in the period, and
the principal paid by the payment. -/
structure AmortEntry where
  periodIndex : ℕ
  remainingBalance : ℚ
  interestAccrued : ℚ
  principalPaid : ℚ
deriving DecidableEq, Repr

/-- Diagnostics of the Debt Amortizer: normal payoff, a payment that
never reduces the principal, or a payoff not reached within the
horizon. -/
inductive AmortDiag where
  | paidOff
  | nonAmortizing
  | payoffHorizonExceeded
deriving DecidableEq, Repr

/-- Result of the Debt Amortizer: the finite payoff schedule plus a
diagnostic. -/
structure AmortResult where
  schedule : List AmortEntry
  diag : AmortDiag
deriving DecidableEq, Repr

/-- Modelled from the spec: the amortizer's maximum horizon, 1200
monthly periods (100 years). -/
def maxHorizonPeriods : ℕ := 1200

/-- Modelled from the spec: one-period-at-a-time payoff simulation.
Per period the interest accrued is `balance * rate / 12`, the
principal paid is `payment - interest` clamped so the balance never
goes negative, and the balance shrinks by the principal paid.  The
fuel argument enforces the horizon bound: running out of fuel with a
positive balance is the `payoffHorizonExceeded` diagnostic. -/
def amortSteps (rate payment : ℚ) : ℕ → ℕ → ℚ → List AmortEntry × AmortDiag
  | 0, _, bal => ([], if bal ≤ 0 then .paidOff else .payoffHorizonExceeded)
  | fuel + 1, idx, bal =>
    if bal ≤ 0 then ([], .paidOff)
    else
      let interest := bal * rate / 12
      let principalPaid := min (payment - interest) bal
      let newBal := bal - principalPaid
      let rest := amortSteps rate payment fuel (idx + 1) newBal
      (⟨idx, newBal, interest, principalPaid⟩ :: rest.1, rest.2)

/-- Modelled from the spec: the Debt Amortizer.  A missing interest
rate counts as zero.  When the monthly payment does not exceed the
first period's accrued interest the debt would never shrink: the
amortizer reports `nonAmortizing` with an empty schedule.  Otherwise it
simulates periods up to the 1200-period horizon.  The amortizer itself
is absent from the code. -/
def amortize (debt : DebtDetails) (payment : ℚ) : AmortResult :=
  let rate := debt.interest_rate.getD 0
  let firstInterest := debt.current_balance * rate / 12
  if payment ≤ firstInterest then ⟨[], .nonAmortizing⟩
  else
    let r := amortSteps rate payment maxHorizonPeriods 1 debt.current_balance
    ⟨r.1, r.2⟩

theorem reqField_eq_some {α : Type} {fs : List (String × JValue)} {k : String}
    {p : JValue → Option α} {a : α} :
    reqField fs k p = some a ↔ ∃ v, getField fs k = some v ∧ p v = some a := by
  unfold reqField
  cases h : getField fs k <;> simp [h]

theorem optField_eq_some {α : Type} {fs : List (String × JValue)} {k : String}
    {p : JValue → Option α} {o : Option α} :
    optField fs k p = some o ↔
      (getField fs k = none ∧ o = none) ∨
      ∃ v a, getField fs k = some v ∧ p v = some a ∧ o = some a := by
  unfold optField
  cases h : getField fs k with
  | none => simp [h, eq_comm]
  | some v =>
    cases hp : p v <;> simp [h, hp] <;> tauto

theorem parseItemAmount_sound {v : JValue} {a : ℚ} (h : parseItemAmount v = some a) :
    0 < a ∧ a ≤ 1000000000 := by
  unfold parseItemAmount at h
  split at h
  · simp at h
  · split_ifs at h with h1 h2 <;> simp_all

theorem parsePosNum_sound {v : JValue} {a : ℚ} (h : parsePosNum v = some a) : 0 < a := by
  unfold parsePosNum at h
  split at h
  · simp at h
  · split_ifs at h with h1 <;> simp_all

theorem parseRate_sound {v : JValue} {a : ℚ} (h : parseRate v = some a) :
    0 ≤ a ∧ a ≤ 1 := by
  unfold parseRate at h
  split at h
  · simp at h
  · split_ifs at h with h1 <;> simp_all

theorem parseCurrency_sound {v : JValue} {s : String} (h : parseCurrency v = some s) :
    s.length = 3 := by
  unfold parseCurrency at h
  split at h
  · simp at h
  · split_ifs at h with h1 <;> simp_all

theorem defCurrency_sound {fs : List (String × JValue)} {s : String}
    (h : defField fs "currency" parseCurrency "USD" = some s) : s.length = 3 := by
  unfold defField at h
  split at h
  · simp only [Option.some.injEq] at h
    subst h
    rfl
  · exact parseCurrency_sound h

/-- C3: frequency validation accepts a string exactly when it is one of
weekly, biweekly, monthly, yearly; everything else is rejected. -/
theorem frequency_enum_iff (s : String) :
    (parseFrequency (.jstr s)).isSome = true ↔
      s = "weekly" ∨ s = "biweekly" ∨ s = "monthly" ∨ s = "yearly" := by
  simp only [parseFrequency]
  split_ifs with h1 h2 h3 h4 <;> simp_all

/-- Witness for C3 at the concrete input "weekly". -/
theorem frequency_enum_iff_witness :
    (parseFrequency (.jstr "weekly")).isSome = true :=
  (frequency_enum_iff "weekly").mpr (Or.inl rfl)

/-- C1: every accepted BudgetItem has a strictly positive amount of at
most 1e9, and on a candidate whose other fields are valid the amount is
accepted exactly when it is strictly positive and at most 1e9. -/
theorem budgetItem_amount_iff :
    (∀ v r, parseBudgetItem v = some r → 0 < r.amount ∧ r.amount ≤ 1000000000) ∧
    (∀ q : ℚ,
      (parseBudgetItem (.jobj [("category_id", .jnum 1), ("name", .jstr "Rent"),
        ("amount", .jnum q)])).isSome = true ↔ 0 < q ∧ q ≤ 1000000000) := by
  constructor
  · intro v r h
    cases v with
    | jobj fs =>
      simp only [parseBudgetItem, Option.bind_eq_some, Option.some.injEq] at h
      obtain ⟨i, hi, cid, hcid, nm, hnm, amount, hamt, freq, hf, act, ha,
        dd, hdd, nts, hnts, hr⟩ := h
      obtain ⟨va, hva, hpa⟩ := reqField_eq_some.mp hamt
      have hq := parseItemAmount_sound hpa
      subst hr
      exact hq
    | jnull => simp [parseBudgetItem] at h
    | jbool b => simp [parseBudgetItem] at h
    | jnum n => simp [parseBudgetItem] at h
    | jstr s => simp [parseBudgetItem] at h
  · intro q
    have hlen : ("Rent" : String).length = 4 := rfl
    by_cases h1 : 0 < q <;> by_cases h2 : q ≤ 1000000000 <;>
      simp [parseBudgetItem, optField, reqField, defField, getField, parseItemAmount,
        parsePosInt, parseIntNum, parseStrLen, parseStr, parseNum, parseFrequency,
        parseBool, parseDueDay, h1, h2, hlen]

/-- Witness for C1: a concrete accepted item has its amount inside the
bounds. -/
theorem budgetItem_amount_iff_witness :
    0 < (⟨none, 1, "Rent", 10, .monthly, true, none, none⟩ : BudgetItem).amount ∧
      (⟨none, 1, "Rent", 10, .monthly, true, none, none⟩ : BudgetItem).amount ≤ 1000000000 :=
  budgetItem_amount_iff.1
    (.jobj [("category_id", .jnum 1), ("name", .jstr "Rent"), ("amount", .jnum 10)])
    ⟨none, 1, "Rent", 10, .monthly, true, none, none⟩ (by decide)

/-- C8: every accepted SalaryConfig has a positive amount and a
3-letter currency; a non-positive amount is rejected, and a present
currency of any other length is rejected. -/
theorem salaryConfig_validation :
    (∀ v r, parseSalaryConfig v = some r → 0 < r.amount ∧ r.currency.length = 3) ∧
    (∀ q : ℚ, q ≤ 0 → parseSalaryConfig (.jobj [("amount", .jnum q)]) = none) ∧
    (∀ s : String, s.length ≠ 3 →
      parseSalaryConfig (.jobj [("amount", .jnum 5), ("currency", .jstr s)]) = none) := by
  refine ⟨?_, ?_, ?_⟩
  · intro v r h
    cases v with
    | jobj fs =>
      simp only [parseSalaryConfig, Option.bind_eq_some, Option.some.injEq] at h
      obtain ⟨amount, hamt, freq, hf, curr, hc, hr⟩ := h
      obtain ⟨va, hva, hpa⟩ := reqField_eq_some.mp hamt
      have h1 := parsePosNum_sound hpa
      have h3 := defCurrency_sound hc
      subst hr
      exact ⟨h1, h3⟩
    | jnull => simp [parseSalaryConfig] at h
    | jbool b => simp [parseSalaryConfig] at h
    | jnum n => simp [parseSalaryConfig] at h
    | jstr s => simp [parseSalaryConfig] at h
  · intro q hq
    have h1 : ¬ 0 < q := not_lt.mpr hq
    simp [parseSalaryConfig, reqField, getField, parsePosNum, parseNum, h1]
  · intro s hs
    have h5 : (0 : ℚ) < 5 := by norm_num
    simp [parseSalaryConfig, reqField, defField, getField, parsePosNum, parseNum,
      parseCurrency, parseStr, parseFrequency, h5, hs]

/-- Witness for C8: amount 0 is rejected and a 4-letter currency is
rejected. -/
theorem salaryConfig_validation_witness :
    parseSalaryConfig (.jobj [("amount", .jnum 0)]) = none ∧
      parseSalaryConfig (.jobj [("amount", .jnum 5), ("currency", .jstr "EURO")]) = none :=
  ⟨salaryConfig_validation.2.1 0 (by norm_num),
   salaryConfig_validation.2.2 "EURO" (by decide)⟩

/-- C2: every accepted DebtDetails has positive principal and positive
current balance, a present interest rate lies in [0, 1], a present
minimum payment is positive, and a balance exceeding the principal is
accepted (no cross-field constraint). -/
theorem debtDetails_constraints :
    (∀ v r, parseDebtDetails v = some r →
      0 < r.principal ∧ 0 < r.current_balance ∧
      (∀ x, r.interest_rate = some x → 0 ≤ x ∧ x ≤ 1) ∧
      (∀ x, r.minimum_payment = some x → 0 < x)) ∧
    (parseDebtDetails (.jobj [("budget_item_id", .jnum 1), ("principal", .jnum 100),
        ("current_balance", .jnum 150)]) =
      some ⟨1, 100, none, none, 150, none⟩ ∧ (100 : ℚ) < 150) := by
  constructor
  · intro v r h
    cases v with
    | jobj fs =>
      simp only [parseDebtDetails, Option.bind_eq_some, Option.some.injEq] at h
      obtain ⟨bid, hbid, pr, hpr, rate, hrate, mp, hmp, bal, hbal, tpd, htpd, hr⟩ := h
      obtain ⟨vp, hvp, hpp⟩ := reqField_eq_some.mp hpr
      obtain ⟨vb, hvb, hpb⟩ := reqField_eq_some.mp hbal
      subst hr
      refine ⟨parsePosNum_sound hpp, parsePosNum_sound hpb, ?_, ?_⟩
      · intro x hx
        rcases optField_eq_some.mp hrate with ⟨_, hnone⟩ | ⟨v2, a2, hv2, hp2, heq⟩
        · subst hnone; simp at hx
        · subst heq
          simp only [Option.some.injEq] at hx
          subst hx
          exact parseRate_sound hp2
      · intro x hx
        rcases optField_eq_some.mp hmp with ⟨_, hnone⟩ | ⟨v2, a2, hv2, hp2, heq⟩
        · subst hnone; simp at hx
        · subst heq
          simp only [Option.some.injEq] at hx
          subst hx
          exact parsePosNum_sound hp2
    | jnull => simp [parseDebtDetails] at h
    | jbool b => simp [parseDebtDetails] at h
    | jnum n => simp [parseDebtDetails] at h
    | jstr s => simp [parseDebtDetails] at h
  · exact ⟨by decide, by norm_num⟩

/-- Witness for C2: the concrete accepted debt (balance 150 above
principal 100) satisfies the constraints. -/
theorem debtDetails_constraints_witness :
    0 < (⟨1, 100, none, none, 150, none⟩ : DebtDetails).principal ∧
      0 < (⟨1, 100, none, none, 150, none⟩ : DebtDetails).current_balance :=
  have h := debtDetails_constraints.1
    (.jobj [("budget_item_id", .jnum 1), ("principal", .jnum 100),
      ("current_balance", .jnum 150)])
    ⟨1, 100, none, none, 150, none⟩ (by decide)
  ⟨h.1, h.2.1⟩

/-- C9: omitted fields are filled with defaults — SalaryConfig
frequency biweekly and currency USD, BudgetItem frequency monthly and
is_active true. -/
theorem schema_defaults :
    (∀ fs r, parseSalaryConfig (.jobj fs) = some r → getField fs "frequency" = none →
      r.frequency = .biweekly) ∧
    (∀ fs r, parseSalaryConfig (.jobj fs) = some r → getField fs "currency" = none →
      r.currency = "USD") ∧
    (∀ fs r, parseBudgetItem (.jobj fs) = some r → getField fs "frequency" = none →
      r.frequency = .monthly) ∧
    (∀ fs r, parseBudgetItem (.jobj fs) = some r → getField fs "is_active" = none →
      r.is_active = true) := by
  refine ⟨?_, ?_, ?_, ?_⟩
  · intro fs r h hn
    simp only [parseSalaryConfig, Option.bind_eq_some, Option.some.injEq] at h
    obtain ⟨amount, hamt, freq, hf, curr, hc, hr⟩ := h
    simp only [defField, hn, Option.some.injEq] at hf
    subst hr
    exact hf.symm
  · intro fs r h hn
    simp only [parseSalaryConfig, Option.bind_eq_some, Option.some.injEq] at h
    obtain ⟨amount, hamt, freq, hf, curr, hc, hr⟩ := h
    simp only [defField, hn, Option.some.injEq] at hc
    subst hr
    exact hc.symm
  · intro fs r h hn
    simp only [parseBudgetItem, Option.bind_eq_some, Option.some.injEq] at h
    obtain ⟨i, hi, cid, hcid, nm, hnm, amount, hamt, freq, hf, act, ha,
      dd, hdd, nts, hnts, hr⟩ := h
    simp only [defField, hn, Option.some.injEq] at hf
    subst hr
    exact hf.symm
  · intro fs r h hn
    simp only [parseBudgetItem, Option.bind_eq_some, Option.some.injEq] at h
    obtain ⟨i, hi, cid, hcid, nm, hnm, amount, hamt, freq, hf, act, ha,
      dd, hdd, nts, hnts, hr⟩ := h
    simp only [defField, hn, Option.some.injEq] at ha
    subst hr
    exact ha.symm

/-- Witness for C9: parsing a salary object holding only an amount
yields the biweekly and USD defaults. -/
theorem schema_defaults_witness :
    (⟨5, .biweekly, "USD"⟩ : SalaryConfig).frequency = .biweekly ∧
      (⟨5, .biweekly, "USD"⟩ : SalaryConfig).currency = "USD" :=
  ⟨schema_defaults.1 [("amount", .jnum 5)] ⟨5, .biweekly, "USD"⟩ (by decide) rfl,
   schema_defaults.2.1 [("amount", .jnum 5)] ⟨5, .biweekly, "USD"⟩ (by decide) rfl⟩

theorem parseBoolRecord_isSome (kvs : List (String × JValue)) :
    (parseBoolRecord kvs).isSome = true ↔ ∀ p ∈ kvs, ∃ b, p.2 = JValue.jbool b := by
  induction kvs with
  | nil => simp [parseBoolRecord]
  | cons kv rest ih =>
    obtain ⟨k, v⟩ := kv
    cases hrec : parseBoolRecord rest <;> cases v <;>
      simp_all [parseBoolRecord, parseBool] <;> tauto

/-- C10: a scenario with an empty item_states map is accepted, and a
candidate with valid other fields is accepted exactly when every value
of its item_states map is a boolean. -/
theorem scenario_item_states_iff :
    (∀ kvs : List (String × JValue),
      (parseScenario (.jobj [("name", .jstr "Base"),
        ("item_states", .jobj kvs)])).isSome = true ↔
        ∀ p ∈ kvs, ∃ b, p.2 = JValue.jbool b) ∧
    parseScenario (.jobj [("name", .jstr "Base"), ("item_states", .jobj [])]) =
      some ⟨none, "Base", none, []⟩ := by
  constructor
  · intro kvs
    have hlen : ("Base" : String).length = 4 := rfl
    rw [← parseBoolRecord_isSome kvs]
    cases hrec : parseBoolRecord kvs <;>
      simp [parseScenario, reqField, optField, defField, getField, parseStrLen,
        parseStr, hlen, hrec]
  · decide

/-- Witness for C10: a one-entry boolean map is accepted. -/
theorem scenario_item_states_iff_witness :
    (parseScenario (.jobj [("name", .jstr "Base"),
      ("item_states", .jobj [("1", .jbool true)])])).isSome = true :=
  (scenario_item_states_iff.1 [("1", .jbool true)]).mpr (by simp)

/-- C7: normalizing an amount from frequency A to B and back to A
returns the original amount within the 1e-6 tolerance (in exact
rational arithmetic the round trip is the identity). -/
theorem normalize_roundtrip (a : ℚ) (A B : Frequency) :
    |normalize (normalize a A B) B A - a| ≤ 1 / 1000000 := by
  have h : normalize (normalize a A B) B A = a := by
    cases A <;> cases B <;> simp only [normalize, periodsPerYear] <;> ring
  rw [h, sub_self, abs_zero]
  norm_num

theorem amortSteps_length (rate payment : ℚ) :
    ∀ (fuel idx : ℕ) (bal : ℚ), (amortSteps rate payment fuel idx bal).1.length ≤ fuel := by
  intro fuel
  induction fuel with
  | zero => intro idx bal; simp [amortSteps]
  | succ n ih =>
    intro idx bal
    rw [amortSteps]
    split_ifs with h
    · simp
    · simpa using ih (idx + 1) _

theorem amortSteps_diag (rate payment : ℚ) :
    ∀ (fuel idx : ℕ) (bal : ℚ),
      (amortSteps rate payment fuel idx bal).2 = .paidOff ∨
        (amortSteps rate payment fuel idx bal).2 = .payoffHorizonExceeded := by
  intro fuel
  induction fuel with
  | zero =>
    intro idx bal
    simp only [amortSteps]
    split_ifs <;> simp
  | succ n ih =>
    intro idx bal
    rw [amortSteps]
    split_ifs with h
    · simp
    · simpa using ih (idx + 1) _

theorem amortSteps_zero_one (fuel : ℕ) :
    ∀ (idx : ℕ) (bal : ℚ), (fuel : ℚ) < bal →
      amortSteps 0 1 fuel idx bal =
        ((List.range fuel).map fun j =>
          ⟨idx + j, bal - (j + 1), 0, 1⟩, .payoffHorizonExceeded) := by
  induction fuel with
  | zero =>
    intro idx bal h
    have h0 : ¬ bal ≤ 0 := by push_cast at h; linarith
    simp [amortSteps, h0]
  | succ n ih =>
    intro idx bal h
    have hcast : (n : ℚ) + 1 < bal := by push_cast at h; linarith
    have hn0 : (0 : ℚ) ≤ (n : ℚ) := Nat.cast_nonneg n
    have hb0 : ¬ bal ≤ 0 := by linarith
    have h1b : (1 : ℚ) ≤ bal := by linarith
    rw [amortSteps]
    rw [if_neg hb0]
    simp only [mul_zero, zero_div, sub_zero, min_eq_left h1b]
    rw [ih (idx + 1) (bal - 1) (by linarith)]
    simp only [List.range_succ_eq_map, List.map_cons, List.map_map, Prod.mk.injEq,
      List.cons.injEq, AmortEntry.mk.injEq]
    refine ⟨⟨⟨by omega, by push_cast; ring, trivial, trivial⟩, ?_⟩, trivial⟩
    apply List.map_congr_left
    intro j hj
    simp only [Function.comp_apply, AmortEntry.mk.injEq, Nat.succ_eq_add_one]
    refine ⟨by omega, by push_cast; ring, trivial, trivial⟩

/-- C5: a payment at most the first period's accrued interest makes the
amortizer report nonAmortizing with an empty schedule. -/
theorem amortize_low_payment (debt : DebtDetails) (payment : ℚ)
    (h : payment ≤ debt.current_balance * debt.interest_rate.getD 0 / 12) :
    amortize debt payment = ⟨[], .nonAmortizing⟩ := by
  simp only [amortize]
  rw [if_pos h]

/-- Witness for C5: a 1000 balance at 12 percent annual rate accrues 10
of monthly interest, so a payment of 10 is reported nonAmortizing. -/
theorem amortize_low_payment_witness :
    amortize ⟨1, 1000, some (12/100), some 100, 1000, none⟩ 10 = ⟨[], .nonAmortizing⟩ :=
  amortize_low_payment _ _ (by norm_num [Option.getD_some])

/-- C6 (amended): the produced schedule never exceeds the 1200-period
horizon, and a payment strictly above the first period's interest
yields either a payoff or the payoffHorizonExceeded report — never a
crash and never nonAmortizing; reaching a zero balance within the
horizon is, however, not guaranteed. -/
theorem amortize_horizon_bounded (debt : DebtDetails) (payment : ℚ) :
    (amortize debt payment).schedule.length ≤ maxHorizonPeriods ∧
    (debt.current_balance * debt.interest_rate.getD 0 / 12 < payment →
      (amortize debt payment).diag = .paidOff ∨
        (amortize debt payment).diag = .payoffHorizonExceeded) := by
  simp only [amortize]
  by_cases hc : payment ≤ debt.current_balance * debt.interest_rate.getD 0 / 12
  · rw [if_pos hc]
    exact ⟨by simp [maxHorizonPeriods], fun h => absurd hc (not_le.mpr h)⟩
  · rw [if_neg hc]
    exact ⟨amortSteps_length _ _ _ _ _, fun _ => amortSteps_diag _ _ _ _ _⟩

/-- Witness for C6 (amended): payment 100 against 10 of first-period
interest terminates with one of the two normal diagnostics. -/
theorem amortize_horizon_bounded_witness :
    (amortize ⟨1, 1000, some (12/100), some 100, 1000, none⟩ 100).diag = .paidOff ∨
      (amortize ⟨1, 1000, some (12/100), some 100, 1000, none⟩ 100).diag = .payoffHorizonExceeded :=
  (amortize_horizon_bounded _ 100).2 (by norm_num [Option.getD_some])

/-- Debt used to refute the payoff half of C6: zero interest rate,
balance 10000, paid 1 per month — payoff needs 10000 periods, far past
the 1200-period horizon. -/
def slowDebt : DebtDetails := ⟨1, 10000, none, some 1, 10000, none⟩

/-- Counterexample to C6 as stated: a payment of 1 strictly exceeds the
first period's interest (zero), yet the amortizer stops after 1200
periods with payoffHorizonExceeded and the last scheduled balance is
8800, not zero. -/
theorem amortize_horizon_counterexample :
    slowDebt.current_balance * slowDebt.interest_rate.getD 0 / 12 < 1 ∧
    (amortize slowDebt 1).diag = .payoffHorizonExceeded ∧
    (amortize slowDebt 1).schedule.length = 1200 ∧
    (amortize slowDebt 1).schedule.getLast?.map AmortEntry.remainingBalance = some 8800 := by
  have hfi : slowDebt.current_balance * slowDebt.interest_rate.getD 0 / 12 < 1 := by
    norm_num [slowDebt, Option.getD_none]
  have heq : amortize slowDebt 1 =
      ⟨(List.range 1200).map fun j =>
        ⟨1 + j, 10000 - ((j : ℚ) + 1), 0, 1⟩, .payoffHorizonExceeded⟩ := by
    simp only [amortize, slowDebt, Option.getD_none, maxHorizonPeriods]
    rw [if_neg (by norm_num)]
    rw [amortSteps_zero_one 1200 1 10000 (by norm_num)]
  refine ⟨hfi, ?_, ?_, ?_⟩ <;> rw [heq]
  · rw [List.length_map, List.length_range]
  · rw [List.getLast?_map]
    have hlast : (List.range 1200).getLast? = some 1199 := by
      rw [show (1200 : ℕ) = 1199 + 1 from rfl, List.range_succ, List.getLast?_concat]
    rw [hlast]
    norm_num

/-- C4: evaluating with a scenario equals evaluating with each item's
flag replaced by its effective active-state (override when present,
own is_active otherwise), and a scenario key matching no item id leaves
the evaluation unchanged — dangling ids are ignored, never an error. -/
theorem scenario_effective_state :
    (∀ (items : List (BudgetItem × CategoryType)) (sc : Scenario) (salary : SalaryConfig),
      evaluate items (some sc) salary =
        evaluate
          (items.map fun p => ({ p.1 with is_active := effectiveActive (some sc) p.1 }, p.2))
          none salary) ∧
    (∀ (items : List (BudgetItem × CategoryType)) (sc : Scenario) (salary : SalaryConfig)
        (k : String) (b : Bool),
      (∀ p ∈ items, p.1.id.map toString ≠ some k) →
      evaluate items (some { sc with item_states := (k, b) :: sc.item_states }) salary =
        evaluate items (some sc) salary) := by
  constructor
  · intro items sc salary
    have hg : ∀ t,
        groupTotal
          (items.map fun p => ({ p.1 with is_active := effectiveActive (some sc) p.1 }, p.2))
          none salary t = groupTotal items (some sc) salary t := by
      intro t
      unfold groupTotal
      rw [List.map_map]
      congr 1
    simp only [evaluate, hg]
  · intro items sc salary k b hk
    have hg : ∀ t,
        groupTotal items (some { sc with item_states := (k, b) :: sc.item_states }) salary t =
          groupTotal items (some sc) salary t := by
      intro t
      unfold groupTotal
      congr 1
      apply List.map_congr_left
      intro p hp
      have he : effectiveActive (some { sc with item_states := (k, b) :: sc.item_states }) p.1 =
          effectiveActive (some sc) p.1 := by
        unfold effectiveActive
        cases hid : p.1.id with
        | none => rfl
        | some i =>
          have hne : ¬ (k = toString i) := by
            intro hcontra
            exact hk p hp (by rw [hid, Option.map_some', hcontra])
          simp [lookupState, hne]
      simp only [itemContribution, he]
    simp only [evaluate, hg]

/-- Witness for C4: adding the dangling key "2" (no item has id 2) to a
scenario leaves the evaluation of a one-item set unchanged. -/
theorem scenario_effective_state_witness :
    evaluate [(⟨some 1, 1, "Rent", 100, .monthly, true, none, none⟩, .expense)]
        (some ⟨none, "S", none, [("2", true), ("1", false)]⟩) ⟨2000, .biweekly, "USD"⟩ =
      evaluate [(⟨some 1, 1, "Rent", 100, .monthly, true, none, none⟩, .expense)]
        (some ⟨none, "S", none, [("1", false)]⟩) ⟨2000, .biweekly, "USD"⟩ :=
  scenario_effective_state.2 _ ⟨none, "S", none, [("1", false)]⟩ _ "2" true (by decide)

end HomeManagement
